import Mathlib

/-!
Shallow embedding of the product CRUD service
(src/src/handlers/product.ts, src/src/router.ts = src/unnamed/part_001,
src/middleware = src/unnamed/part_000) and the persistence boundary it
uses.  Handlers are modelled as functions from a store and the request
data to a `HandlerResult` (new store, optional HTTP response, log lines,
number of persistence calls attempted).  The Sequelize model file
(src/models/Product.model.ts) is not present in the sources, so the
persistence primitives are modelled from the spec where noted.
-/

namespace ProductApi

/-- A persisted product row: id (integer primary key), name, price,
availability.  Prices are JSON numbers; the claims under study only use
integer prices, so they are embedded as `Int`. -/
structure Product where
  id : Nat
  name : String
  price : Int
  availability : Bool
deriving Repr, DecidableEq

/-- Modelled from the spec: the external relational store backing the
`products` table (the Sequelize model src/models/Product.model.ts is not
under src/).  `rows` holds the persisted rows in insertion order and
`nextId` is the auto-increment primary-key counter. -/
structure Store where
  rows : List Product
  nextId : Nat
deriving Repr, DecidableEq

/-- A JSON body field value as seen by the validators: a number, a
string, a boolean, or absent. -/
inductive BodyVal where
  | num (n : Int)
  | str (s : String)
  | boolean (b : Bool)
  | absent
deriving Repr, DecidableEq

/-- The POST /api/products request body: `name` and `price` are the
documented fields; `availability` is an optional extra field that the
handler forwards verbatim to the persistence layer
(Product.create(req.body) in src/src/handlers/product.ts). -/
structure CreateBody where
  name : String
  price : BodyVal
  availability : Option Bool
deriving Repr, DecidableEq

/-- The PUT /api/products/:id request body (`name`, `price`,
`availability`). -/
structure UpdateBody where
  name : String
  price : BodyVal
  availability : BodyVal
deriving Repr, DecidableEq

/-- Modelled from the spec: the numeric value the persistence layer
stores for a validated body price (validation guarantees the value is
numeric before any handler runs). -/
def BodyVal.toPrice : BodyVal → Int
  | .num n => n
  | .str s => s.toInt?.getD 0
  | _ => 0

/-- Modelled from the spec: the boolean the persistence layer stores for
a validated `availability` body field (validation guarantees it is a
boolean). -/
def BodyVal.toBoolVal : BodyVal → Bool
  | .boolean b => b
  | _ => false

/-- One collected validation failure: the offending field and the
declared human-readable message. -/
structure FieldError where
  fieldName : String
  msg : String
deriving Repr, DecidableEq

/-- A JSON response body, restricted to the shapes the handlers emit. -/
inductive RespBody where
  | dataProduct (p : Product)
  | dataList (ps : List Product)
  | dataMsg (s : String)
  | errorMsg (s : String)
  | errorList (es : List FieldError)
deriving Repr, DecidableEq

/-- An HTTP response: status code and JSON body. -/
structure Response where
  status : Nat
  body : RespBody
deriving Repr, DecidableEq

/-- The outcome of one handler execution: the resulting store, the HTTP
response if one was written (`none` models an unterminated response),
the console log lines, and how many persistence calls were attempted. -/
structure HandlerResult where
  store : Store
  response : Option Response
  log : List String
  attempts : Nat
deriving Repr, DecidableEq

/-- Whether the persistence layer raises on its first use during the
request (`fail msg` models a thrown database error carrying `msg`). -/
inductive DbOutcome where
  | ok
  | fail (msg : String)
deriving Repr, DecidableEq

/-! ### Persistence primitives (modelled from the spec, §6:
findAll(orderBy), findById(id), create(fields), update(record, fields),
delete(record); the Sequelize model file is not under src/). -/

/-- Modelled from the spec: Product.findByPk — look a row up by its
integer primary key; raises if the database call fails. -/
def dbFindByPk (db : DbOutcome) (s : Store) (i : Int) : Except String (Option Product) :=
  match db with
  | .fail m => .error m
  | .ok => .ok (s.rows.find? (fun q => (q.id : Int) = i))

/-- Descending insertion by id, used to model the `order: [["id","DESC"]]`
clause of Product.findAll. -/
def insertDesc (p : Product) : List Product → List Product
  | [] => [p]
  | q :: qs => if q.id ≤ p.id then p :: q :: qs else q :: insertDesc p qs

/-- Modelled from the spec: the row list Product.findAll returns under
`order: [["id","DESC"]]` — all rows sorted by descending id. -/
def sortDesc (l : List Product) : List Product :=
  l.foldr insertDesc []

/-- Modelled from the spec: Product.create(req.body) — build a row from
the body (`availability` defaults to true when the caller did not supply
it), append it with a fresh auto-increment id; raises on failure. -/
def dbCreate (db : DbOutcome) (s : Store) (b : CreateBody) : Except String (Store × Product) :=
  match db with
  | .fail m => .error m
  | .ok =>
    let p : Product :=
      { id := s.nextId, name := b.name, price := b.price.toPrice,
        availability := b.availability.getD true }
    .ok (⟨s.rows ++ [p], s.nextId + 1⟩, p)

/-- Modelled from the spec: persisting an updated row (product.update /
product.save) — every stored row with the same id is replaced. -/
def saveRow (s : Store) (p : Product) : Store :=
  ⟨s.rows.map (fun q => if q.id = p.id then p else q), s.nextId⟩

/-- Modelled from the spec: product.destroy — remove the row
permanently. -/
def destroyRow (s : Store) (p : Product) : Store :=
  ⟨s.rows.filter (fun q => q.id ≠ p.id), s.nextId⟩

/-! ### Handlers (src/src/handlers/product.ts).  Each try/catch block is
embedded as a match on the fallible first persistence call: the catch
branch writes the error to the log and sends no response. -/

/-- createProduct: Product.create(req.body) then res.json({data:product})
(no explicit status, hence 200); catch logs and sends nothing. -/
def createProduct (db : DbOutcome) (b : CreateBody) (s : Store) : HandlerResult :=
  match dbCreate db s b with
  | .error m => ⟨s, none, [m], 1⟩
  | .ok (s2, p) => ⟨s2, some ⟨200, .dataProduct p⟩, [], 1⟩

/-- getProducts: Product.findAll ordered by id descending, then
res.status(200).json({data:products}). -/
def getProducts (db : DbOutcome) (s : Store) : HandlerResult :=
  match db with
  | .fail m => ⟨s, none, [m], 1⟩
  | .ok => ⟨s, some ⟨200, .dataList (sortDesc s.rows)⟩, [], 1⟩

/-- getProductById: findByPk; 404 "Producto No Encontrado" when absent,
else 200 {data:product}. -/
def getProductById (db : DbOutcome) (i : Int) (s : Store) : HandlerResult :=
  match dbFindByPk db s i with
  | .error m => ⟨s, none, [m], 1⟩
  | .ok none => ⟨s, some ⟨404, .errorMsg "Producto No Encontrado"⟩, [], 1⟩
  | .ok (some p) => ⟨s, some ⟨200, .dataProduct p⟩, [], 1⟩

/-- updateProduct: findByPk; 404 when absent; else product.update(body)
and product.save() (three persistence calls in all), then 200. -/
def updateProduct (db : DbOutcome) (i : Int) (b : UpdateBody) (s : Store) : HandlerResult :=
  match dbFindByPk db s i with
  | .error m => ⟨s, none, [m], 1⟩
  | .ok none => ⟨s, some ⟨404, .errorMsg "Producto No Encontrado"⟩, [], 1⟩
  | .ok (some p) =>
    let p2 : Product :=
      { id := p.id, name := b.name, price := b.price.toPrice,
        availability := b.availability.toBoolVal }
    let s2 := saveRow (saveRow s p2) p2
    ⟨s2, some ⟨200, .dataProduct p2⟩, [], 3⟩

/-- updateAvailability: findByPk; 404 when absent; else flip
availability, product.save(), respond 201. -/
def updateAvailability (db : DbOutcome) (i : Int) (s : Store) : HandlerResult :=
  match dbFindByPk db s i with
  | .error m => ⟨s, none, [m], 1⟩
  | .ok none => ⟨s, some ⟨404, .errorMsg "Producto No Encontrado"⟩, [], 1⟩
  | .ok (some p) =>
    let p2 : Product := { p with availability := !p.availability }
    ⟨saveRow s p2, some ⟨201, .dataProduct p2⟩, [], 2⟩

/-- deleteProduct: findByPk; 404 when absent; else product.destroy and
respond 200 {data:"Producto Eliminado"}. -/
def deleteProduct (db : DbOutcome) (i : Int) (s : Store) : HandlerResult :=
  match dbFindByPk db s i with
  | .error m => ⟨s, none, [m], 1⟩
  | .ok none => ⟨s, some ⟨404, .errorMsg "Producto No Encontrado"⟩, [], 1⟩
  | .ok (some p) =>
    ⟨destroyRow s p, some ⟨200, .dataMsg "Producto Eliminado"⟩, [], 2⟩

/-! ### Validation layer (src/unnamed/part_001 rules, src/unnamed/part_000
middleware).  Each express-validator chain is embedded as a function
collecting all of its failures; the route concatenates the chains in
declaration order, matching express-validator running every rule. -/

/-- The numeric value of a decimal digit character, none otherwise. -/
def charDigit? (c : Char) : Option Nat :=
  if '0' ≤ c ∧ c ≤ '9' then some (c.toNat - '0'.toNat) else none

/-- Accumulate the value of a decimal digit run; none on any
non-digit. -/
def digitsValAux : List Char → Nat → Option Nat
  | [], acc => some acc
  | c :: cs, acc =>
    match charDigit? c with
    | some d => digitsValAux cs (acc * 10 + d)
    | none => none

/-- Modelled from the spec: the integer parse performed by the isInt
rule (express-validator is an external collaborator) — an optional minus
sign followed by at least one decimal digit. -/
def parseIntSeg (s : String) : Option Int :=
  match s.data with
  | [] => none
  | ['-'] => none
  | '-' :: c :: cs => (digitsValAux (c :: cs) 0).map (fun n => -(n : Int))
  | c :: cs => (digitsValAux (c :: cs) 0).map (fun n => (n : Int))

/-- param("id").isInt().withMessage("ID no válido"): fails unless the id
path segment parses as an integer. -/
def validateId (idStr : String) : List FieldError :=
  if (parseIntSeg idStr).isSome then [] else [⟨"id", "ID no válido"⟩]

/-- body("name").notEmpty(): fails when the name is empty. -/
def validateName (name : String) : List FieldError :=
  if name = "" then [⟨"name", "El nombre del Producto no puede ir vacío"⟩] else []

/-- Whether a body value counts as numeric for isNumeric (a JSON number,
or a numeric string). -/
def BodyVal.isNumericVal : BodyVal → Bool
  | .num _ => true
  | .str s => s.toInt?.isSome
  | _ => false

/-- Whether a body value counts as non-empty for notEmpty (present and
not the empty string). -/
def BodyVal.isNonEmptyVal : BodyVal → Bool
  | .absent => false
  | .str s => !(s = "")
  | _ => true

/-- Whether value > 0 holds in the custom price rule (after JavaScript
numeric coercion of strings). -/
def BodyVal.isPositiveVal : BodyVal → Bool
  | .num n => 0 < n
  | .str s => match s.toInt? with
    | some n => 0 < n
    | none => false
  | _ => false

/-- The body("price") chain: isNumeric, notEmpty and the value > 0
custom rule, every failing rule contributing its message. -/
def validatePrice (price : BodyVal) : List FieldError :=
  (if price.isNumericVal then [] else [⟨"price", "valor no válido"⟩]) ++
  (if price.isNonEmptyVal then [] else [⟨"price", "El precio del Producto no puede ir vacío"⟩]) ++
  (if price.isPositiveVal then [] else [⟨"price", "El precio no es válido"⟩])

/-- body("availability").isBoolean(): fails unless the value is a
boolean. -/
def validateAvailability (v : BodyVal) : List FieldError :=
  match v with
  | .boolean _ => []
  | _ => [⟨"availability", "Valor para disponibilidad no válido"⟩]

/-- handleInputErrors (src/unnamed/part_000): when the collected error
list is non-empty respond 400 {errors:[...]} without running the next
handler; otherwise call through to it. -/
def handleInputErrors (errors : List FieldError)
    (next : Store → HandlerResult) (s : Store) : HandlerResult :=
  if errors.isEmpty then next s
  else ⟨s, some ⟨400, .errorList errors⟩, [], 0⟩

/-! ### Routes (src/unnamed/part_001): validator chains in declaration
order, then handleInputErrors, then the business handler. -/

/-- The integer the handler receives for a validated id segment. -/
def parseId (idStr : String) : Int :=
  (parseIntSeg idStr).getD 0

/-- POST /: name and price chains, handleInputErrors, createProduct. -/
def routeCreate (db : DbOutcome) (b : CreateBody) (s : Store) : HandlerResult :=
  handleInputErrors (validateName b.name ++ validatePrice b.price)
    (createProduct db b) s

/-- GET /:id: id chain, handleInputErrors, getProductById. -/
def routeGetById (db : DbOutcome) (idStr : String) (s : Store) : HandlerResult :=
  handleInputErrors (validateId idStr) (getProductById db (parseId idStr)) s

/-- PUT /:id: id, name, price and availability chains,
handleInputErrors, updateProduct. -/
def routePut (db : DbOutcome) (idStr : String) (b : UpdateBody) (s : Store) : HandlerResult :=
  handleInputErrors
    (validateId idStr ++ validateName b.name ++ validatePrice b.price ++
      validateAvailability b.availability)
    (updateProduct db (parseId idStr) b) s

/-- PATCH /:id: id chain, handleInputErrors, updateAvailability. -/
def routePatch (db : DbOutcome) (idStr : String) (s : Store) : HandlerResult :=
  handleInputErrors (validateId idStr) (updateAvailability db (parseId idStr)) s

/-- DELETE /:id: id chain, handleInputErrors, deleteProduct. -/
def routeDelete (db : DbOutcome) (idStr : String) (s : Store) : HandlerResult :=
  handleInputErrors (validateId idStr) (deleteProduct db (parseId idStr)) s

/-! ### Helper lemmas about the persistence primitives. -/

/-- Looking a fresh row up after appending it: when no earlier row
matches the predicate, find? returns the appended row iff it matches. -/
lemma find?_append_fresh (l : List Product) (p : Product) (pred : Product → Bool)
    (h : ∀ q ∈ l, pred q = false) :
    (l ++ [p]).find? pred = if pred p then some p else none := by
  induction l with
  | nil =>
    cases hp : pred p <;> simp [List.find?, hp]
  | cons a as ih =>
    have ha := h a (List.mem_cons_self a as)
    have ih2 := ih (fun q hq => h q (List.mem_cons_of_mem a hq))
    simp only [List.cons_append, List.find?, ha]
    exact ih2

/-- After replacing every row carrying the found row's id, find? returns
the replacement. -/
lemma find?_map_replace (rows : List Product) (i : Int) (p p2 : Product)
    (hfind : rows.find? (fun q => (q.id : Int) = i) = some p)
    (hid : p2.id = p.id) :
    (rows.map (fun q => if q.id = p2.id then p2 else q)).find?
      (fun q => (q.id : Int) = i) = some p2 := by
  have hp : ((p.id : Int) = i) := by
    have := List.find?_some hfind
    exact of_decide_eq_true this
  induction rows with
  | nil => simp [List.find?] at hfind
  | cons a as ih =>
    by_cases ha : ((a.id : Int) = i)
    · have hfa : (a :: as).find? (fun q => (q.id : Int) = i) = some a :=
        List.find?_cons_of_pos as (by simpa using ha)
      have hpa : p = a := by
        rw [hfa] at hfind
        exact (Option.some.inj hfind).symm
      have haid : a.id = p2.id := by
        rw [hid, hpa]
      have hp2 : ((p2.id : Int) = i) := by
        rw [hid, hpa]
        exact ha
      have hmap : (a :: as).map (fun q => if q.id = p2.id then p2 else q) =
          p2 :: as.map (fun q => if q.id = p2.id then p2 else q) := by
        simp [haid]
      rw [hmap]
      exact List.find?_cons_of_pos _ (by simpa using hp2)
    · have haid : ¬ (a.id = p2.id) := by
        intro hcontra
        apply ha
        rw [hcontra, hid]
        exact hp
      have hfind2 : as.find? (fun q => (q.id : Int) = i) = some p := by
        rw [List.find?_cons_of_neg as (by simpa using ha)] at hfind
        exact hfind
      have hmap : (a :: as).map (fun q => if q.id = p2.id then p2 else q) =
          a :: as.map (fun q => if q.id = p2.id then p2 else q) := by
        simp [haid]
      rw [hmap, List.find?_cons_of_neg _ (by simpa using ha)]
      exact ih hfind2

/-- Descending insertion permutes consing. -/
lemma insertDesc_perm (p : Product) (l : List Product) :
    (insertDesc p l).Perm (p :: l) := by
  induction l with
  | nil => simp [insertDesc]
  | cons q qs ih =>
    by_cases h : q.id ≤ p.id
    · simp [insertDesc, h]
    · simp only [insertDesc, if_neg h]
      exact (ih.cons q).trans (List.Perm.swap p q qs)

/-- Descending insertion preserves the descending-pairwise invariant. -/
lemma insertDesc_pairwise (p : Product) (l : List Product)
    (h : l.Pairwise (fun a b => b.id ≤ a.id)) :
    (insertDesc p l).Pairwise (fun a b => b.id ≤ a.id) := by
  induction l with
  | nil => simp [insertDesc]
  | cons q qs ih =>
    rcases List.pairwise_cons.mp h with ⟨hq, hqs⟩
    by_cases hle : q.id ≤ p.id
    · simp only [insertDesc, if_pos hle]
      refine List.pairwise_cons.mpr ⟨?_, h⟩
      intro b hb
      rcases List.mem_cons.mp hb with rfl | hb2
      · exact hle
      · exact le_trans (hq b hb2) hle
    · simp only [insertDesc, if_neg hle]
      refine List.pairwise_cons.mpr ⟨?_, ih hqs⟩
      intro b hb
      have hb3 : b ∈ p :: qs := (insertDesc_perm p qs).mem_iff.mp hb
      rcases List.mem_cons.mp hb3 with rfl | hb4
      · exact Nat.le_of_lt (Nat.lt_of_not_le hle)
      · exact hq b hb4

/-- sortDesc permutes the row list. -/
lemma sortDesc_perm (l : List Product) : (sortDesc l).Perm l := by
  induction l with
  | nil => simp [sortDesc]
  | cons p ps ih =>
    simp only [sortDesc, List.foldr]
    exact (insertDesc_perm p _).trans (ih.cons p)

/-- sortDesc output is pairwise descending by id. -/
lemma sortDesc_pairwise (l : List Product) :
    (sortDesc l).Pairwise (fun a b => b.id ≤ a.id) := by
  induction l with
  | nil => simp [sortDesc]
  | cons p ps ih =>
    simp only [sortDesc, List.foldr]
    exact insertDesc_pairwise p _ ih

/-! ### Claim theorems. -/

/-- Claim C2: for every integer id with no matching row, each of
get-by-id, full-update, availability-update and delete responds 404 with
the fixed message "Producto No Encontrado", leaves the store unchanged,
and attempts only the look-up persistence call. -/
theorem claim_C2_not_found (s : Store) (i : Int) (b : UpdateBody)
    (h : s.rows.find? (fun q => (q.id : Int) = i) = none) :
    getProductById .ok i s = ⟨s, some ⟨404, .errorMsg "Producto No Encontrado"⟩, [], 1⟩ ∧
    updateProduct .ok i b s = ⟨s, some ⟨404, .errorMsg "Producto No Encontrado"⟩, [], 1⟩ ∧
    updateAvailability .ok i s = ⟨s, some ⟨404, .errorMsg "Producto No Encontrado"⟩, [], 1⟩ ∧
    deleteProduct .ok i s = ⟨s, some ⟨404, .errorMsg "Producto No Encontrado"⟩, [], 1⟩ := by
  refine ⟨?_, ?_, ?_, ?_⟩ <;>
    simp [getProductById, updateProduct, updateAvailability, deleteProduct, dbFindByPk, h]

/-- Witness for C2 at the empty store and id 5. -/
theorem claim_C2_not_found_witness :
    (Store.mk [] 1).rows.find? (fun q => (q.id : Int) = 5) = none ∧
    getProductById .ok 5 ⟨[], 1⟩ =
      ⟨⟨[], 1⟩, some ⟨404, .errorMsg "Producto No Encontrado"⟩, [], 1⟩ :=
  ⟨rfl, (claim_C2_not_found ⟨[], 1⟩ 5 ⟨"x", .num 1, .boolean true⟩ rfl).1⟩

/-- Claim C8: when the persistence call fails, every handler only logs
the error, sends no HTTP response (the response stays unterminated),
leaves the store unchanged, and attempts the persistence call exactly
once with no retry. -/
theorem claim_C8_persistence_failure (s : Store) (m : String) (b : CreateBody)
    (ub : UpdateBody) (i : Int) :
    createProduct (.fail m) b s = ⟨s, none, [m], 1⟩ ∧
    getProducts (.fail m) s = ⟨s, none, [m], 1⟩ ∧
    getProductById (.fail m) i s = ⟨s, none, [m], 1⟩ ∧
    updateProduct (.fail m) i ub s = ⟨s, none, [m], 1⟩ ∧
    updateAvailability (.fail m) i s = ⟨s, none, [m], 1⟩ ∧
    deleteProduct (.fail m) i s = ⟨s, none, [m], 1⟩ :=
  ⟨rfl, rfl, rfl, rfl, rfl, rfl⟩

/-- Claim C9: the list and get-by-id handlers never change the store,
whatever the persistence outcome and id. -/
theorem claim_C9_get_routes_pure (db : DbOutcome) (s : Store) (i : Int) :
    (getProducts db s).store = s ∧ (getProductById db i s).store = s := by
  constructor
  · cases db <;> simp [getProducts]
  · cases db with
    | fail m => simp [getProductById, dbFindByPk]
    | ok =>
      cases h : s.rows.find? (fun q => (q.id : Int) = i) <;>
        simp [getProductById, dbFindByPk, h]

/-- Claim C10: the create handler forwards the whole request body to the
persistence create call, so a caller-supplied availability value ends up
in the created record instead of the default. -/
theorem claim_C10_body_forwarded (s : Store) (nm : String) (pv : BodyVal) (av : Bool) :
    createProduct .ok ⟨nm, pv, some av⟩ s =
      ⟨⟨s.rows ++ [⟨s.nextId, nm, pv.toPrice, av⟩], s.nextId + 1⟩,
        some ⟨200, .dataProduct ⟨s.nextId, nm, pv.toPrice, av⟩⟩, [], 1⟩ := by
  simp [createProduct, dbCreate]

/-- Claim C5: for every store state the list handler responds 200 with
exactly the stored rows ordered by descending id (a permutation of the
rows, pairwise descending), leaving the store unchanged. -/
theorem claim_C5_list_sorted (s : Store) :
    getProducts .ok s = ⟨s, some ⟨200, .dataList (sortDesc s.rows)⟩, [], 1⟩ ∧
    (sortDesc s.rows).Perm s.rows ∧
    (sortDesc s.rows).Pairwise (fun a b => b.id ≤ a.id) :=
  ⟨rfl, sortDesc_perm s.rows, sortDesc_pairwise s.rows⟩

/-- Claim C7: when the id path segment does not parse as an integer,
every id-taking route responds 400 with the collected errors, the store
is untouched, and no persistence call is attempted. -/
theorem claim_C7_invalid_id (idStr : String) (s : Store) (b : UpdateBody)
    (h : parseIntSeg idStr = none) :
    routeGetById .ok idStr s = ⟨s, some ⟨400, .errorList [⟨"id", "ID no válido"⟩]⟩, [], 0⟩ ∧
    routePatch .ok idStr s = ⟨s, some ⟨400, .errorList [⟨"id", "ID no válido"⟩]⟩, [], 0⟩ ∧
    routeDelete .ok idStr s = ⟨s, some ⟨400, .errorList [⟨"id", "ID no válido"⟩]⟩, [], 0⟩ ∧
    routePut .ok idStr b s = ⟨s, some ⟨400, .errorList (⟨"id", "ID no válido"⟩ ::
      (validateName b.name ++ validatePrice b.price ++
        validateAvailability b.availability))⟩, [], 0⟩ := by
  have hv : validateId idStr = [⟨"id", "ID no válido"⟩] := by
    simp [validateId, h]
  refine ⟨?_, ?_, ?_, ?_⟩ <;>
    simp [routeGetById, routePatch, routeDelete, routePut, handleInputErrors, hv]

/-- Witness for C7 at id segment "abc" and the empty store. -/
theorem claim_C7_invalid_id_witness :
    parseIntSeg "abc" = none ∧
    routeGetById .ok "abc" ⟨[], 1⟩ =
      ⟨⟨[], 1⟩, some ⟨400, .errorList [⟨"id", "ID no válido"⟩]⟩, [], 0⟩ :=
  ⟨by decide,
    (claim_C7_invalid_id "abc" ⟨[], 1⟩ ⟨"x", .num 1, .boolean true⟩ (by decide)).1⟩

/-- Claim C3: the validation middleware responds 400 with the collected
error list and never runs the handler when the list is non-empty, passes
through unchanged when it is empty, and on the create route the declared
name and price rules are all evaluated and their failures collected
(both failures appear in one 400 body). -/
theorem claim_C3_validation_middleware (errors : List FieldError)
    (h1 h2 : Store → HandlerResult) (s : Store) (b : CreateBody) :
    (errors ≠ [] →
      handleInputErrors errors h1 s = ⟨s, some ⟨400, .errorList errors⟩, [], 0⟩ ∧
      handleInputErrors errors h1 s = handleInputErrors errors h2 s) ∧
    (errors = [] → handleInputErrors errors h1 s = h1 s) ∧
    (b.name = "" → ¬ b.price.isPositiveVal = true →
      (routeCreate .ok b s).store = s ∧
      (routeCreate .ok b s).response =
        some ⟨400, .errorList (validateName b.name ++ validatePrice b.price)⟩ ∧
      ⟨"name", "El nombre del Producto no puede ir vacío"⟩ ∈
        validateName b.name ++ validatePrice b.price ∧
      ⟨"price", "El precio no es válido"⟩ ∈
        validateName b.name ++ validatePrice b.price) := by
  refine ⟨?_, ?_, ?_⟩
  · intro hne
    have : ¬ errors.isEmpty = true := by
      simpa [List.isEmpty_iff] using hne
    constructor <;> simp [handleInputErrors, this]
  · intro he
    simp [handleInputErrors, he]
  · intro hname hpos
    have hvn : validateName b.name = [⟨"name", "El nombre del Producto no puede ir vacío"⟩] := by
      simp [validateName, hname]
    have hmemp : (⟨"price", "El precio no es válido"⟩ : FieldError) ∈ validatePrice b.price := by
      unfold validatePrice
      refine List.mem_append_right _ ?_
      rw [if_neg hpos]
      exact List.mem_singleton_self _
    refine ⟨?_, ?_, ?_, ?_⟩
    · simp [routeCreate, handleInputErrors, hvn]
    · simp [routeCreate, handleInputErrors, hvn]
    · simp [hvn]
    · exact List.mem_append_right _ hmemp

/-- Witness for C3: a failing name rule at a concrete request (both
middleware branches exercised, plus the create route collecting the name
and price failures together). -/
theorem claim_C3_validation_middleware_witness :
    handleInputErrors [⟨"name", "m"⟩] (fun s => ⟨s, none, [], 0⟩) ⟨[], 1⟩ =
      ⟨⟨[], 1⟩, some ⟨400, .errorList [⟨"name", "m"⟩]⟩, [], 0⟩ ∧
    handleInputErrors [] (fun s => ⟨s, none, [], 0⟩) ⟨[], 1⟩ = ⟨⟨[], 1⟩, none, [], 0⟩ ∧
    (⟨"price", "El precio no es válido"⟩ : FieldError) ∈
      validateName (CreateBody.mk "" .absent none).name ++
        validatePrice (CreateBody.mk "" .absent none).price :=
  ⟨((claim_C3_validation_middleware [⟨"name", "m"⟩] (fun s => ⟨s, none, [], 0⟩)
      (fun s => ⟨s, none, [], 0⟩) ⟨[], 1⟩ ⟨"", .absent, none⟩).1 (by decide)).1,
    (claim_C3_validation_middleware [] (fun s => ⟨s, none, [], 0⟩)
      (fun s => ⟨s, none, [], 0⟩) ⟨[], 1⟩ ⟨"", .absent, none⟩).2.1 rfl,
    ((claim_C3_validation_middleware [] (fun s => ⟨s, none, [], 0⟩)
      (fun s => ⟨s, none, [], 0⟩) ⟨[], 1⟩ ⟨"", .absent, none⟩).2.2 rfl (by decide)).2.2.2⟩

/-- Claim C1: for every creation body with non-empty name, price > 0
and no extra availability field, the create route responds 200 with the
created record carrying the generated id, and fetching that id from the
resulting store yields the same name and price with availability true
(assuming the auto-increment invariant that every stored id is below
nextId). -/
theorem claim_C1_create_then_fetch (s : Store) (nm : String) (n : Int)
    (hwf : ∀ q ∈ s.rows, q.id < s.nextId)
    (hname : nm ≠ "") (hpos : 0 < n) :
    routeCreate .ok ⟨nm, .num n, none⟩ s =
      ⟨⟨s.rows ++ [⟨s.nextId, nm, n, true⟩], s.nextId + 1⟩,
        some ⟨200, .dataProduct ⟨s.nextId, nm, n, true⟩⟩, [], 1⟩ ∧
    getProductById .ok (s.nextId : Int)
        ⟨s.rows ++ [⟨s.nextId, nm, n, true⟩], s.nextId + 1⟩ =
      ⟨⟨s.rows ++ [⟨s.nextId, nm, n, true⟩], s.nextId + 1⟩,
        some ⟨200, .dataProduct ⟨s.nextId, nm, n, true⟩⟩, [], 1⟩ := by
  constructor
  · simp [routeCreate, handleInputErrors, validateName, validatePrice, hname,
      BodyVal.isNumericVal, BodyVal.isNonEmptyVal, BodyVal.isPositiveVal, hpos,
      createProduct, dbCreate, BodyVal.toPrice]
  · have hnone : ∀ q ∈ s.rows,
        (fun q => decide ((q.id : Int) = (s.nextId : Int))) q = false := by
      intro q hq
      simp only [decide_eq_false_iff_not]
      intro hcontra
      have hqid : q.id = s.nextId := by exact_mod_cast hcontra
      exact absurd hqid (Nat.ne_of_lt (hwf q hq))
    have hfresh : (s.rows ++ [(⟨s.nextId, nm, n, true⟩ : Product)]).find?
        (fun q => (q.id : Int) = (s.nextId : Int)) = some ⟨s.nextId, nm, n, true⟩ := by
      rw [find?_append_fresh s.rows _ _ hnone]
      simp
    simp only [getProductById, dbFindByPk]
    rw [hfresh]

/-- Witness for C1 at the empty store and body name "Monitor",
price 300. -/
theorem claim_C1_create_then_fetch_witness :
    (∀ q ∈ (Store.mk [] 1).rows, q.id < (Store.mk [] 1).nextId) ∧
    ("Monitor" : String) ≠ "" ∧ (0 : Int) < 300 ∧
    routeCreate .ok ⟨"Monitor", .num 300, none⟩ ⟨[], 1⟩ =
      ⟨⟨[⟨1, "Monitor", 300, true⟩], 2⟩,
        some ⟨200, .dataProduct ⟨1, "Monitor", 300, true⟩⟩, [], 1⟩ :=
  ⟨by simp, by decide, by decide,
    (claim_C1_create_then_fetch ⟨[], 1⟩ "Monitor" 300 (by simp) (by decide) (by decide)).1⟩

/-- Claim C4: for every stored product the availability-update handler
flips availability (never leaving it unchanged), persists the flip (the
fetched record shows the negated value), responds 201 with the updated
record, and a second application restores the original record. -/
theorem claim_C4_toggle (s : Store) (i : Int) (p : Product)
    (h : s.rows.find? (fun q => (q.id : Int) = i) = some p) :
    updateAvailability .ok i s =
      ⟨saveRow s { p with availability := !p.availability },
        some ⟨201, .dataProduct { p with availability := !p.availability }⟩, [], 2⟩ ∧
    (!p.availability) ≠ p.availability ∧
    (saveRow s { p with availability := !p.availability }).rows.find?
      (fun q => (q.id : Int) = i) = some { p with availability := !p.availability } ∧
    (updateAvailability .ok i
        (saveRow s { p with availability := !p.availability })).store.rows.find?
      (fun q => (q.id : Int) = i) = some p := by
  have h2 : (saveRow s { p with availability := !p.availability }).rows.find?
      (fun q => (q.id : Int) = i) = some { p with availability := !p.availability } := by
    simp only [saveRow]
    exact find?_map_replace s.rows i p { p with availability := !p.availability } h rfl
  refine ⟨by simp [updateAvailability, dbFindByPk, h], Bool.not_ne_self p.availability, h2, ?_⟩
  have hstep : updateAvailability .ok i (saveRow s { p with availability := !p.availability }) =
      ⟨saveRow (saveRow s { p with availability := !p.availability })
          { p with availability := !(!p.availability) },
        some ⟨201, .dataProduct { p with availability := !(!p.availability) }⟩, [], 2⟩ := by
    simp [updateAvailability, dbFindByPk, h2]
  rw [hstep]
  have h3 : (saveRow (saveRow s { p with availability := !p.availability })
      { p with availability := !(!p.availability) }).rows.find?
      (fun q => (q.id : Int) = i) = some { p with availability := !(!p.availability) } := by
    simp only [saveRow]
    exact find?_map_replace _ i { p with availability := !p.availability }
      { p with availability := !(!p.availability) } h2 rfl
  rw [h3, Bool.not_not]

/-- Witness for C4 at a one-row store. -/
theorem claim_C4_toggle_witness :
    (Store.mk [⟨1, "a", 5, true⟩] 2).rows.find? (fun q => (q.id : Int) = 1) =
      some ⟨1, "a", 5, true⟩ ∧
    updateAvailability .ok 1 ⟨[⟨1, "a", 5, true⟩], 2⟩ =
      ⟨⟨[⟨1, "a", 5, false⟩], 2⟩,
        some ⟨201, .dataProduct ⟨1, "a", 5, false⟩⟩, [], 2⟩ := by
  have hfind : (Store.mk [⟨1, "a", 5, true⟩] 2).rows.find? (fun q => (q.id : Int) = 1) =
      some ⟨1, "a", 5, true⟩ := by decide
  refine ⟨hfind, ?_⟩
  have := (claim_C4_toggle ⟨[⟨1, "a", 5, true⟩], 2⟩ 1 ⟨1, "a", 5, true⟩ hfind).1
  simpa [saveRow] using this

/-- Claim C6: for every stored product the delete handler removes the
row permanently, responds 200 with the plain confirmation string
"Producto Eliminado", and a subsequent fetch of the same id responds
404. -/
theorem claim_C6_delete_then_fetch (s : Store) (i : Int) (p : Product)
    (h : s.rows.find? (fun q => (q.id : Int) = i) = some p) :
    deleteProduct .ok i s =
      ⟨destroyRow s p, some ⟨200, .dataMsg "Producto Eliminado"⟩, [], 2⟩ ∧
    p ∉ (destroyRow s p).rows ∧
    getProductById .ok i (destroyRow s p) =
      ⟨destroyRow s p, some ⟨404, .errorMsg "Producto No Encontrado"⟩, [], 1⟩ := by
  have hp : ((p.id : Int) = i) := by
    have hp0 := List.find?_some h
    simpa using hp0
  refine ⟨by simp [deleteProduct, dbFindByPk, h], ?_, ?_⟩
  · simp [destroyRow, List.mem_filter]
  · have hnone : (destroyRow s p).rows.find? (fun q => (q.id : Int) = i) = none := by
      rw [List.find?_eq_none]
      intro x hx
      simp only [destroyRow, List.mem_filter, decide_eq_true_eq] at hx
      simp only [decide_eq_true_eq]
      intro hxi
      have hxp : x.id = p.id := by
        have : (x.id : Int) = (p.id : Int) := by rw [hxi, hp]
        exact_mod_cast this
      exact hx.2 hxp
    simp [getProductById, dbFindByPk, hnone]

/-- Witness for C6 at a one-row store. -/
theorem claim_C6_delete_then_fetch_witness :
    (Store.mk [⟨1, "a", 5, true⟩] 2).rows.find? (fun q => (q.id : Int) = 1) =
      some ⟨1, "a", 5, true⟩ ∧
    deleteProduct .ok 1 ⟨[⟨1, "a", 5, true⟩], 2⟩ =
      ⟨⟨[], 2⟩, some ⟨200, .dataMsg "Producto Eliminado"⟩, [], 2⟩ := by
  have hfind : (Store.mk [⟨1, "a", 5, true⟩] 2).rows.find? (fun q => (q.id : Int) = 1) =
      some ⟨1, "a", 5, true⟩ := by decide
  refine ⟨hfind, ?_⟩
  have := (claim_C6_delete_then_fetch ⟨[⟨1, "a", 5, true⟩], 2⟩ 1 ⟨1, "a", 5, true⟩ hfind).1
  simpa [destroyRow] using this

end ProductApi
